import Mathlib

/-!
Verification of the taskmonger (BuffMonster) interval-tracking core against
its specification.  The definitions below are a shallow embedding of
`src/main.rs`: the tagged-range data model, the interval algebra
(`intersects`, `union`), the validator (`clean_invalid_ranges`), tag
application (`apply_tag_to_selection`), range/tag deletion, the tag
registry (`add_tag` over a HashMap modelled as an association list), the
edit-reconciliation loop from `update`, and the persistence discipline of
`save_to_disk` (fallible filesystem writes modelled by explicit state
passing with failure flags).
-/

namespace Taskmonger

/-- Half-open interval of byte offsets, modelling Rust `Range<usize>`.
The field `en` models the Rust field `end` (`end` is a Lean keyword). -/
structure Rng where
  start : Nat
  en : Nat
deriving DecidableEq, Repr

/-- `RangeExt::intersects` from src/main.rs:
`self.start < other.end && other.start < self.end`. -/
def intersects (a b : Rng) : Bool :=
  decide (a.start < b.en) && decide (b.start < a.en)

/-- `RangeExt::union` from src/main.rs: the convex hull
`min(self.start, other.start)..max(self.end, other.end)`. -/
def union (a b : Rng) : Rng :=
  ⟨min a.start b.start, max a.en b.en⟩

/-- `TaggedRange` from src/main.rs: a tag name plus a byte interval. -/
structure TaggedRange where
  tag_name : String
  range : Rng
deriving DecidableEq, Repr

/-- The `retain` predicate inside `BuffMonster::clean_invalid_ranges`:
`tr.range.start < buffer_len && tr.range.end <= buffer_len && tr.range.start < tr.range.end`. -/
def validRange (bufferLen : Nat) (tr : TaggedRange) : Bool :=
  decide (tr.range.start < bufferLen ∧ tr.range.en ≤ bufferLen ∧ tr.range.start < tr.range.en)

/-- The clamping pass of `clean_invalid_ranges` (the `for` loop that runs
after the `retain`): clamp `end` to `buffer_len` if it exceeds it, then
clamp `start` likewise.  The two clamps touch independent fields. -/
def clampRange (bufferLen : Nat) (tr : TaggedRange) : TaggedRange :=
  ⟨tr.tag_name,
   ⟨if tr.range.start > bufferLen then bufferLen else tr.range.start,
    if tr.range.en > bufferLen then bufferLen else tr.range.en⟩⟩

/-- `BuffMonster::clean_invalid_ranges`: first `retain` the valid ranges,
then run the clamping loop over the survivors. -/
def clean_invalid_ranges (bufferLen : Nat) (trs : List TaggedRange) : List TaggedRange :=
  (trs.filter (validRange bufferLen)).map (clampRange bufferLen)

/-- `BuffMonster::apply_tag_to_selection`: scan the stored ranges in order;
the first range with the same tag that intersects the selection is replaced
by the hull of the two and the scan stops (early `return`); if no such
range exists, a new `TaggedRange` holding the selection is pushed at the
end.  There is no emptiness check on the selection in the source. -/
def apply_tag_to_selection (tagName : String) (selection : Rng) :
    List TaggedRange → List TaggedRange
  | [] => [⟨tagName, selection⟩]
  | tr :: rest =>
    if tr.tag_name = tagName ∧ intersects tr.range selection then
      ⟨tr.tag_name, union tr.range selection⟩ :: rest
    else
      tr :: apply_tag_to_selection tagName selection rest

/-- `BuffMonster::delete_tagged_range`: `self.tagged_ranges.retain(|t| t != range)`. -/
def delete_tagged_range (r : TaggedRange) (trs : List TaggedRange) : List TaggedRange :=
  trs.filter (fun t => decide (t ≠ r))

/-- The range part of `BuffMonster::delete_tag`:
`self.tagged_ranges.retain(|tr| tr.tag_name != tag_name)`. -/
def delete_tag_ranges (tagName : String) (trs : List TaggedRange) : List TaggedRange :=
  trs.filter (fun tr => decide (tr.tag_name ≠ tagName))

/-- RGB triple, modelling Rust `[u8; 3]`. -/
abbrev Color := Nat × Nat × Nat

/-- `HashMap::insert` semantics over an association list with unique keys:
replace the value of an existing key, otherwise add the binding. -/
def mapInsert (k : String) (v : Color) : List (String × Color) → List (String × Color)
  | [] => [(k, v)]
  | (k', v') :: rest => if k' = k then (k, v) :: rest else (k', v') :: mapInsert k v rest

/-- `HashMap::get` semantics over the association list. -/
def mapLookup (k : String) : List (String × Color) → Option Color
  | [] => none
  | (k', v') :: rest => if k' = k then some v' else mapLookup k rest

/-- Rust `str::trim` modelled over the character list: drop leading and
trailing whitespace. -/
def rustTrim (s : String) : String :=
  String.mk (((s.data.dropWhile Char.isWhitespace).reverse.dropWhile Char.isWhitespace).reverse)

/-- `BuffMonster::add_tag`: `let name = name.trim().to_string();
self.tags.insert(name, random_color());`.  The freshly generated random
color is an input of the model.  There is no emptiness or presence check
in the source. -/
def add_tag (name : String) (color : Color) (tags : List (String × Color)) :
    List (String × Color) :=
  mapInsert (rustTrim name) color tags

/-- The `shift` computation in `BuffMonster::update`: with no selection a
backspace gives `-1` and an insertion `+1`; with a selection of length
`selection_len` a delete gives `-selection_len` and a replacing keystroke
`-(selection_len - 1)`. -/
def edit_shift (selectionLen : Nat) (delete : Bool) : Int :=
  if selectionLen = 0 then
    (if delete then (-1 : Int) else 1)
  else
    (if delete then -(selectionLen : Int) else -((selectionLen : Int) - 1))

/-- The body of the reconciliation loop in `BuffMonster::update`: each
boundary strictly greater than the cursor index the loop receives
(`range.primary.index`) is moved by `shift`, through
`(x as i32 + shift).abs() as usize`, i.e. `Int.natAbs`. -/
def reconcile_range (caret : Nat) (shift : Int) (r : Rng) : Rng :=
  ⟨if r.start > caret then ((r.start : Int) + shift).natAbs else r.start,
   if r.en > caret then ((r.en : Int) + shift).natAbs else r.en⟩

/-- The reconciliation loop in `BuffMonster::update`, mapped over every
stored range. -/
def reconcile (caret : Nat) (shift : Int) (trs : List TaggedRange) : List TaggedRange :=
  trs.map (fun tr => ⟨tr.tag_name, reconcile_range caret shift tr.range⟩)

/-- The cursor index the reconciliation loop receives for a no-selection
caret edit anchored at byte position `anchor`: the editor widget hands the
loop its post-edit primary cursor (`range.primary.index`), which is
`anchor + 1` after inserting one character at `anchor` and `anchor` after
a backspace that deleted the character at `anchor`. -/
def post_edit_cursor (anchor : Nat) (delete : Bool) : Nat :=
  if delete then anchor else anchor + 1

/-- A complete no-selection caret edit as the program processes it: the
reconciliation loop runs with the post-edit cursor and the shift computed
in `BuffMonster::update` (`+1` insertion, `-1` backspace). -/
def no_selection_edit (anchor : Nat) (delete : Bool) (trs : List TaggedRange) :
    List TaggedRange :=
  reconcile (post_edit_cursor anchor delete) (edit_shift 0 delete) trs

/-- `Settings` from src/main.rs. -/
structure Settings where
  dark_mode : Bool
  markdown_view_enabled : Bool
  mark_as_background : Bool
deriving DecidableEq, Repr

/-- The persisted document: `buffer`, `tags`, `tagged_ranges`, `settings`
(the serialized fields of `BuffMonster`). -/
structure Doc where
  buffer : String
  tags : List (String × Color)
  tagged_ranges : List TaggedRange
  settings : Settings
deriving Repr

/-- Models `serde_json::to_string_pretty` as a total rendering of the
serialized fields; the claims about `save_to_disk` concern only the write
discipline, not the JSON text itself. -/
def serializeDoc (doc : Doc) : String :=
  reprStr (doc.buffer, doc.tags, doc.tagged_ranges, doc.settings.dark_mode,
    doc.settings.markdown_view_enabled, doc.settings.mark_as_background)

/-- The two files `save_to_disk` touches: `backup.txt` and
`buffmonster_state.json`. -/
structure FS where
  backupFile : Option String
  stateFile : Option String
deriving DecidableEq, Repr

/-- `BuffMonster::save_to_disk`: serialize (modelled total), then
`fs::write("backup.txt", &self.buffer)?`, then
`fs::write(save_path, json)?`.  Each `?` propagates the first failure to
the caller; a file written before a later failure stays written.  The
failure of each write is an input flag of the model. -/
def save_to_disk (doc : Doc) (backupWriteFails stateWriteFails : Bool) (fs : FS) :
    FS × Except Unit Unit :=
  if backupWriteFails then
    (fs, Except.error ())
  else
    if stateWriteFails then
      (⟨some doc.buffer, fs.stateFile⟩, Except.error ())
    else
      (⟨some doc.buffer, some (serializeDoc doc)⟩, Except.ok ())

/-- The clamping pass never changes a range the retain filter kept. -/
lemma clampRange_of_valid (len : Nat) (tr : TaggedRange) (h : validRange len tr = true) :
    clampRange len tr = tr := by
  obtain ⟨t, s, e⟩ := tr
  simp only [validRange, decide_eq_true_eq] at h
  obtain ⟨h1, h2, h3⟩ := h
  simp only [clampRange]
  have hs : ¬ s > len := by omega
  have he : ¬ e > len := by omega
  rw [if_neg hs, if_neg he]

/-- The validator is the retain filter: the clamping loop runs only on
ranges the filter kept, and is the identity there. -/
lemma clean_eq_filter (len : Nat) (trs : List TaggedRange) :
    clean_invalid_ranges len trs = trs.filter (validRange len) := by
  unfold clean_invalid_ranges
  induction trs with
  | nil => rfl
  | cons tr rest ih =>
    rw [List.filter_cons]
    by_cases hv : validRange len tr = true
    · rw [if_pos hv, List.map_cons, clampRange_of_valid len tr hv, ih]
    · rw [if_neg hv, ih]

/-- A shifted boundary is never negative when the shift is plus or minus
one, so the absolute value in the source agrees with clamping at zero. -/
lemma natAbs_shift_eq_toNat (caret x : Nat) (d : Int) (hd : d = 1 ∨ d = -1) :
    (if caret < x then ((x : Int) + d).natAbs else x) =
    (if caret < x then ((x : Int) + d).toNat else x) := by
  by_cases hc : caret < x
  · rw [if_pos hc, if_pos hc]
    rcases hd with h | h <;> subst h <;> omega
  · rw [if_neg hc, if_neg hc]

/-- Looking up the inserted key finds the inserted value. -/
lemma lookup_insert_self (k : String) (v : Color) (m : List (String × Color)) :
    mapLookup k (mapInsert k v m) = some v := by
  induction m with
  | nil => simp [mapInsert, mapLookup]
  | cons p rest ih =>
    obtain ⟨k', v'⟩ := p
    by_cases h : k' = k
    · simp [mapInsert, mapLookup, h]
    · simp [mapInsert, mapLookup, h, ih]

/-- Inserting one key leaves every other key's lookup unchanged. -/
lemma lookup_insert_other (k k' : String) (v : Color) (m : List (String × Color))
    (h : k' ≠ k) :
    mapLookup k' (mapInsert k v m) = mapLookup k' m := by
  induction m with
  | nil => simp [mapInsert, mapLookup, Ne.symm h]
  | cons p rest ih =>
    obtain ⟨a, b⟩ := p
    by_cases ha : a = k
    · subst ha
      simp [mapInsert, mapLookup, Ne.symm h]
    · simp [mapInsert, mapLookup, ha, ih]

/-- Claim C1 counterexample: with a buffer of length 5 and the stored range
[1, 10), whose end exceeds the buffer length while its start is in bounds,
the claim predicts the validator keeps it clamped to [1, 5); the code's
retain filter instead drops it entirely, so the validator's output is empty
and the clamped range is not present. -/
theorem c1_counterexample :
    clean_invalid_ranges 5 [⟨"x", ⟨1, 10⟩⟩] = [] ∧
    (⟨"x", ⟨1, 5⟩⟩ : TaggedRange) ∉ clean_invalid_ranges 5 [⟨"x", ⟨1, 10⟩⟩] := by
  decide

/-- Claim C1 (amended): every stored range whose end exceeds the buffer
length is dropped entirely by the validator; the clamp loop runs only
after the retain filter has already removed it, so no clamped copy
survives. -/
theorem c1_amended_oob_dropped (len : Nat) (trs : List TaggedRange) (r : TaggedRange)
    (hend : len < r.range.en) :
    r ∉ clean_invalid_ranges len trs := by
  rw [clean_eq_filter len trs]
  intro hmem
  have h := (List.mem_filter.mp hmem).2
  simp only [validRange, decide_eq_true_eq] at h
  omega

/-- Witness for C1 (amended) at the buffer length 5 and stored range [1, 10). -/
theorem c1_amended_oob_dropped_witness :
    (⟨"x", ⟨1, 10⟩⟩ : TaggedRange) ∉ clean_invalid_ranges 5 [⟨"x", ⟨1, 10⟩⟩] :=
  c1_amended_oob_dropped 5 [⟨"x", ⟨1, 10⟩⟩] ⟨"x", ⟨1, 10⟩⟩ (by decide)

/-- Claim C2 counterexample: insert one character at caret_position 0
(delta plus one) with the stored range [1, 2), which does not contain the
caret.  The claim requires both boundaries, being strictly greater than 0,
to shift by the delta, giving [2, 3); the program hands the loop the
post-edit cursor 1, so the start boundary, equal to 1, is not shifted and
the result is [1, 3). -/
theorem c2_counterexample :
    no_selection_edit 0 false [⟨"x", ⟨1, 2⟩⟩] = [⟨"x", ⟨1, 3⟩⟩] ∧
    no_selection_edit 0 false [⟨"x", ⟨1, 2⟩⟩] ≠ [⟨"x", ⟨2, 3⟩⟩] := by
  decide

/-- Claim C2 (amended): for a no-selection caret edit anchored at
caret_position and a stored range not containing the caret, the loop runs
with the post-edit cursor — caret_position for a backspace, so a boundary
shifts exactly when it is strictly greater than caret_position; but
caret_position + 1 for an insertion, so a boundary shifts exactly when it
is strictly greater than caret_position + 1, and a boundary equal to
caret_position or to caret_position + 1 is not shifted.  Each shifted
boundary is clamped at zero (the source's absolute value agrees with
Int.toNat on these shifts, so the result is never negative). -/
theorem c2_amended_translation_rule (anchor : Nat) (del : Bool) (r : Rng)
    (hout : ¬ (r.start ≤ anchor ∧ anchor < r.en)) :
    reconcile_range (post_edit_cursor anchor del) (edit_shift 0 del) r =
      ⟨if post_edit_cursor anchor del < r.start then
         ((r.start : Int) + edit_shift 0 del).toNat else r.start,
       if post_edit_cursor anchor del < r.en then
         ((r.en : Int) + edit_shift 0 del).toNat else r.en⟩ := by
  have hsh : edit_shift 0 del = 1 ∨ edit_shift 0 del = -1 := by
    cases del
    · exact Or.inl rfl
    · exact Or.inr rfl
  obtain ⟨s, e⟩ := r
  simp only [reconcile_range, gt_iff_lt, Rng.mk.injEq]
  exact ⟨natAbs_shift_eq_toNat (post_edit_cursor anchor del) s _ hsh,
    natAbs_shift_eq_toNat (post_edit_cursor anchor del) e _ hsh⟩

/-- Witness for C2 (amended) at an insertion anchored at 4 (post-edit
cursor 5) and the range [7, 9), which shifts to [8, 10). -/
theorem c2_amended_translation_rule_witness :
    reconcile_range (post_edit_cursor 4 false) (edit_shift 0 false) ⟨7, 9⟩ = ⟨8, 10⟩ := by
  rw [c2_amended_translation_rule 4 false ⟨7, 9⟩ (by decide)]
  decide

/-- Claim C3 (code bug): applying a tag with an empty selection completes
with a stored range whose start equals its end, so the invariant
start < end does not hold after apply_tag completes; the operation runs no
validation. -/
theorem c3_apply_tag_breaks_invariant :
    apply_tag_to_selection "x" ⟨0, 0⟩ [] = [⟨"x", ⟨0, 0⟩⟩] ∧
    ¬ (∀ tr ∈ apply_tag_to_selection "x" ⟨0, 0⟩ [], tr.range.start < tr.range.en) := by
  decide

/-- Claim C4: for a selection-replacing edit of a selection [s, s + L) with
L at least 1, a stored range exactly equal to the selection collapses to
[s, s) on a delete (cursor lands at s, shift is minus L) and becomes
[s, s + 1) on a one-character replace (cursor lands at s + 1, shift is
1 - L); the cursor indices are the post-edit primary cursor positions the
editor widget hands to the loop. -/
theorem c4_exact_selection_collapse (s L : Nat) (trs : List TaggedRange) (tr : TaggedRange)
    (hL : 1 ≤ L) (hmem : tr ∈ trs) (hrng : tr.range = ⟨s, s + L⟩) :
    (⟨tr.tag_name, ⟨s, s⟩⟩ : TaggedRange) ∈ reconcile s (edit_shift L true) trs ∧
    (⟨tr.tag_name, ⟨s, s + 1⟩⟩ : TaggedRange) ∈ reconcile (s + 1) (edit_shift L false) trs := by
  have hsh1 : edit_shift L true = -(L : Int) := by
    unfold edit_shift
    rw [if_neg (by omega)]
    rfl
  have hsh2 : edit_shift L false = -((L : Int) - 1) := by
    unfold edit_shift
    rw [if_neg (by omega)]
    rfl
  have h1 : reconcile_range s (edit_shift L true) ⟨s, s + L⟩ = ⟨s, s⟩ := by
    rw [hsh1]
    simp only [reconcile_range, gt_iff_lt, Rng.mk.injEq]
    constructor
    · rw [if_neg (by omega)]
    · rw [if_pos (by omega)]
      omega
  have h2 : reconcile_range (s + 1) (edit_shift L false) ⟨s, s + L⟩ = ⟨s, s + 1⟩ := by
    rw [hsh2]
    simp only [reconcile_range, gt_iff_lt, Rng.mk.injEq]
    constructor
    · rw [if_neg (by omega)]
    · by_cases hc : s + 1 < s + L
      · rw [if_pos hc]
        omega
      · rw [if_neg hc]
        omega
  constructor
  · simp only [reconcile]
    exact List.mem_map.mpr ⟨tr, hmem, by simp only [hrng, h1]⟩
  · simp only [reconcile]
    exact List.mem_map.mpr ⟨tr, hmem, by simp only [hrng, h2]⟩

/-- Witness for C4 with selection [2, 5) (length 3) over the stored range
[2, 5): a delete collapses it to [2, 2) and a replace to [2, 3). -/
theorem c4_exact_selection_collapse_witness :
    (⟨"x", ⟨2, 2⟩⟩ : TaggedRange) ∈ reconcile 2 (edit_shift 3 true) [⟨"x", ⟨2, 5⟩⟩] ∧
    (⟨"x", ⟨2, 3⟩⟩ : TaggedRange) ∈ reconcile 3 (edit_shift 3 false) [⟨"x", ⟨2, 5⟩⟩] :=
  c4_exact_selection_collapse 2 3 [⟨"x", ⟨2, 5⟩⟩] ⟨"x", ⟨2, 5⟩⟩ (by decide) (by decide) rfl

/-- Claim C5 (code bug): applying a tag with the empty selection [3, 3) to
a document with no stored ranges appends the degenerate range instead of
being a no-op, so the stored set changes. -/
theorem c5_empty_selection_not_noop :
    apply_tag_to_selection "x" ⟨3, 3⟩ [] = [⟨"x", ⟨3, 3⟩⟩] ∧
    ([⟨"x", ⟨3, 3⟩⟩] : List TaggedRange) ≠ [] := by
  decide

/-- Claim C6 counterexample: deleting the range ("x", [0, 1)) from a list
holding two equal copies removes both; the claim predicts the later copy
remains. -/
theorem c6_counterexample :
    delete_tagged_range ⟨"x", ⟨0, 1⟩⟩ [⟨"x", ⟨0, 1⟩⟩, ⟨"x", ⟨0, 1⟩⟩] = [] ∧
    (⟨"x", ⟨0, 1⟩⟩ : TaggedRange) ∉
      delete_tagged_range ⟨"x", ⟨0, 1⟩⟩ [⟨"x", ⟨0, 1⟩⟩, ⟨"x", ⟨0, 1⟩⟩] := by
  decide

/-- Claim C6 (amended): delete_range removes every stored range equal (by
tag name and interval) to the given value and keeps every other range,
preserving their order. -/
theorem c6_amended_removes_all_equal (r : TaggedRange) (trs : List TaggedRange) :
    r ∉ delete_tagged_range r trs ∧
    (delete_tagged_range r trs).Sublist trs ∧
    (∀ t ∈ trs, t ≠ r → t ∈ delete_tagged_range r trs) := by
  refine ⟨?_, ?_, ?_⟩
  · intro hmem
    have h := (List.mem_filter.mp hmem).2
    simp at h
  · exact List.filter_sublist trs
  · intro t ht hne
    exact List.mem_filter.mpr ⟨ht, by simp [hne]⟩

/-- Witness for C6 (amended): a range unequal to the deleted one survives. -/
theorem c6_amended_removes_all_equal_witness :
    (⟨"y", ⟨2, 3⟩⟩ : TaggedRange) ∈ delete_tagged_range ⟨"x", ⟨0, 1⟩⟩ [⟨"y", ⟨2, 3⟩⟩] :=
  (c6_amended_removes_all_equal ⟨"x", ⟨0, 1⟩⟩ [⟨"y", ⟨2, 3⟩⟩]).2.2
    ⟨"y", ⟨2, 3⟩⟩ (by decide) (by decide)

/-- Claim C7 counterexample: the registry maps "x" to the color (1, 2, 3);
create_tag("x") with the freshly generated random color (191, 63, 63)
overwrites the stored color instead of being a no-op, so the registry
changes although the trimmed name was already present. -/
theorem c7_counterexample :
    add_tag "x" (191, 63, 63) [("x", (1, 2, 3))] = [("x", (191, 63, 63))] ∧
    add_tag "x" (191, 63, 63) [("x", (1, 2, 3))] ≠ [("x", (1, 2, 3))] := by
  decide

/-- Claim C7 (amended): create_tag trims its input name and unconditionally
inserts the trimmed name mapped to the freshly generated color, overwriting
the color of an already-present tag (and inserting even an empty trimmed
name); lookups under every other name are unchanged. -/
theorem c7_amended_unconditional_insert (tags : List (String × Color)) (name : String)
    (c : Color) :
    mapLookup (rustTrim name) (add_tag name c tags) = some c ∧
    (∀ k, k ≠ rustTrim name → mapLookup k (add_tag name c tags) = mapLookup k tags) := by
  constructor
  · exact lookup_insert_self (rustTrim name) c tags
  · intro k hk
    exact lookup_insert_other (rustTrim name) k c tags hk

/-- Witness for C7 (amended): inserting " x " (trimmed to "x") leaves the
binding of "y" unchanged. -/
theorem c7_amended_unconditional_insert_witness :
    mapLookup "y" (add_tag " x " (1, 1, 1) [("y", (0, 0, 0))]) =
      mapLookup "y" [("y", (0, 0, 0))] :=
  (c7_amended_unconditional_insert [("y", (0, 0, 0))] " x " (1, 1, 1)).2 "y" (by decide)

/-- Claim C8 counterexample: when the backup write fails, save_to_disk
returns early through the question-mark operator and the structured
document is never written, contradicting the claim that a failure of
either write does not prevent the other. -/
theorem c8_counterexample :
    (save_to_disk ⟨"hello", [], [], ⟨false, false, false⟩⟩ true false ⟨none, none⟩).1.stateFile
      = none ∧
    (save_to_disk ⟨"hello", [], [], ⟨false, false, false⟩⟩ true false ⟨none, none⟩).2
      = Except.error () :=
  ⟨rfl, rfl⟩

/-- Claim C8 (amended): save serializes, then writes the backup, then the
structured document, propagating the first failure: a backup-write failure
prevents the structured write and leaves the filesystem untouched, a
structured-write failure leaves the backup already written, and on success
both files hold the new contents; errors are returned to the caller (who
discards them) and the in-memory document is never modified. -/
theorem c8_amended_sequential_writes (doc : Doc) (fs : FS) :
    save_to_disk doc true false fs = (fs, Except.error ()) ∧
    save_to_disk doc true true fs = (fs, Except.error ()) ∧
    save_to_disk doc false true fs = (⟨some doc.buffer, fs.stateFile⟩, Except.error ()) ∧
    save_to_disk doc false false fs =
      (⟨some doc.buffer, some (serializeDoc doc)⟩, Except.ok ()) :=
  ⟨rfl, rfl, rfl, rfl⟩

/-- Claim C9 counterexample: the selection [2, 5) is non-empty and fully
enclosed by the stored same-tag range ("x", [0, 10)), yet applying "x"
again is not a no-op: the scan hits the earlier range ("x", [0, 3)) first,
which intersects the selection without enclosing it, and enlarges it to
the hull [0, 5). -/
theorem c9_counterexample :
    (2 : Nat) < 5 ∧
    (⟨"x", ⟨0, 10⟩⟩ : TaggedRange) ∈ [(⟨"x", ⟨0, 3⟩⟩ : TaggedRange), ⟨"x", ⟨0, 10⟩⟩] ∧
    (0 : Nat) ≤ 2 ∧ (5 : Nat) ≤ 10 ∧
    apply_tag_to_selection "x" ⟨2, 5⟩ [⟨"x", ⟨0, 3⟩⟩, ⟨"x", ⟨0, 10⟩⟩] ≠
      [⟨"x", ⟨0, 3⟩⟩, ⟨"x", ⟨0, 10⟩⟩] := by
  decide

/-- Claim C9 (amended): apply_tag is a no-op for a non-empty selection when
the first stored range with the same tag that intersects the selection
fully encloses it — then the hull equals that range and the scan stops
without changing anything. -/
theorem c9_amended_first_match_encloses (tag : String) (sel : Rng)
    (l1 l2 : List TaggedRange) (tr : TaggedRange)
    (hsel : sel.start < sel.en)
    (hbefore : ∀ t ∈ l1, ¬ (t.tag_name = tag ∧ intersects t.range sel))
    (htag : tr.tag_name = tag)
    (henc : tr.range.start ≤ sel.start ∧ sel.en ≤ tr.range.en) :
    apply_tag_to_selection tag sel (l1 ++ tr :: l2) = l1 ++ tr :: l2 := by
  induction l1 with
  | nil =>
    have hint : intersects tr.range sel = true := by
      simp only [intersects, Bool.and_eq_true, decide_eq_true_eq]
      omega
    simp only [List.nil_append, apply_tag_to_selection]
    rw [if_pos ⟨htag, hint⟩]
    have hu : union tr.range sel = tr.range := by
      have hmin : min tr.range.start sel.start = tr.range.start := by omega
      have hmax : max tr.range.en sel.en = tr.range.en := by omega
      simp only [union, hmin, hmax]
    rw [hu]
  | cons t ts ih =>
    have hcond := hbefore t (by simp)
    simp only [List.cons_append, apply_tag_to_selection]
    rw [if_neg hcond]
    exact congrArg (fun l => t :: l) (ih (fun u hu => hbefore u (by simp [hu])))

/-- Witness for C9 (amended): the enclosing range ("x", [0, 10)) is the
first same-tag intersecting range, so applying "x" to [2, 5) changes
nothing. -/
theorem c9_amended_first_match_encloses_witness :
    apply_tag_to_selection "x" ⟨2, 5⟩ [⟨"y", ⟨0, 1⟩⟩, ⟨"x", ⟨0, 10⟩⟩] =
      [⟨"y", ⟨0, 1⟩⟩, ⟨"x", ⟨0, 10⟩⟩] :=
  c9_amended_first_match_encloses "x" ⟨2, 5⟩ [⟨"y", ⟨0, 1⟩⟩] [] ⟨"x", ⟨0, 10⟩⟩
    (by decide) (by decide) rfl (by decide)

/-- Claim C10: the validator only deletes: its output is exactly the retain
filter of its input (the clamp loop never changes a surviving range, since
every range with a boundary beyond the buffer was already removed), hence
the output is a sublist of the input — each output range is byte-for-byte
an input range and input order is preserved. -/
theorem c10_validator_only_deletes (len : Nat) (trs : List TaggedRange) :
    clean_invalid_ranges len trs = trs.filter (validRange len) ∧
    (clean_invalid_ranges len trs).Sublist trs := by
  constructor
  · exact clean_eq_filter len trs
  · rw [clean_eq_filter len trs]
    exact List.filter_sublist trs

end Taskmonger
